import Mathlib

/-!
Shallow embedding of the movie store in `server-movies.py`.

Modelling conventions:
* Python `str` is modelled as `List Char` (`Str`); `str.strip()` is `strip`,
  `str.lower()` is `lower` (ASCII case mapping, the fragment exercised here),
  `a in b` (substring) is `isSubstr`.
* Timestamps: `_now_iso()` returns the current clock reading.  Each call site
  of `_now_iso()` is modelled as one explicit `Nat` argument to the operation;
  an operation with two call sites takes two readings, in source order.
* `uuid.uuid4()` is modelled as an explicit id argument to `add_movie`.
* The module-level dict `_movies` is an insertion-ordered association list of
  records; `_movies[k] = v` replaces the first entry with that id or appends
  (`dictSet`), `del` removes it (`dictDel`), `.get` finds it (`dictGet`).
* `raise ValueError(msg)` is modelled as `Except.error` carrying the message,
  classified into the spec's error kinds by raise site.  Because Python
  exceptions do not roll back earlier in-place mutations, every operation
  returns the resulting store alongside the `Except` result.
-/

/-- Python `str` modelled as a list of characters. -/
abbrev Str := List Char

/-- Python `str.strip()`: drop whitespace from both ends. -/
def strip (s : Str) : Str :=
  ((s.dropWhile Char.isWhitespace).reverse.dropWhile Char.isWhitespace).reverse

/-- Python `str.lower()` on the ASCII fragment. -/
def lower (s : Str) : Str := s.map Char.toLower

/-- Python `needle in hay` substring containment on strings. -/
def isSubstr (needle hay : Str) : Bool :=
  hay.tails.any (fun t => needle.isPrefixOf t)

/-- One movie record (`server-movies.py` lines 86-97): the fixed shape every
stored dict has.  Timestamps are clock readings (`Nat`). -/
structure Movie where
  id : Str
  title : Str
  year : Int
  genres : List Str
  director : Option Str
  borrowed : Bool
  borrowed_by : Option Str
  borrowed_at : Option Nat
  created_at : Nat
  updated_at : Nat
deriving Repr, DecidableEq

/-- The spec's error kinds (spec section 7), each carrying the message of the
`ValueError` raised at the corresponding site in `server-movies.py`. -/
inductive MErr where
  | invalidArgument (msg : Str)
  | notFound (msg : Str)
  | conflict (msg : Str)
  | invalidState (msg : Str)
deriving Repr, DecidableEq

instance {ε α : Type} [DecidableEq ε] [DecidableEq α] : DecidableEq (Except ε α) :=
  fun a b =>
    match a, b with
    | .ok x, .ok y =>
      if h : x = y then isTrue (h ▸ rfl) else isFalse (fun hh => h (Except.ok.inj hh))
    | .error x, .error y =>
      if h : x = y then isTrue (h ▸ rfl) else isFalse (fun hh => h (Except.error.inj hh))
    | .ok _, .error _ => isFalse (fun hh => Except.noConfusion hh)
    | .error _, .ok _ => isFalse (fun hh => Except.noConfusion hh)

/-- The `_normalize_genres` loop (lines 42-56): trim each entry, drop
empties, keep the first occurrence of each lower-cased key.  `seen` is the
set of lower-cased keys already emitted. -/
def normLoop (seen : List Str) : List Str → List Str
  | [] => []
  | g :: rest =>
    if strip g = [] then normLoop seen rest
    else if lower (strip g) ∈ seen then normLoop seen rest
    else strip g :: normLoop (lower (strip g) :: seen) rest

/-- Function `_normalize_genres(genres)` (lines 42-56): `None` (and the empty list,
which is falsy) yields `[]`; otherwise run the loop with an empty seen set. -/
def normalizeGenres (genres : Option (List Str)) : List Str :=
  match genres with
  | none => []
  | some gs => normLoop [] gs

/-- Python `(x or "").strip() or None`: trim, and store the empty result as absent
(used for `director` in `add_movie` line 91 and `update_movie` lines 191-192). -/
def stripToOption (d : Option Str) : Option Str :=
  let s := strip (d.getD [])
  if s = [] then none else some s

/-- Python str() of an optional string, as f-string interpolation renders it
(`None` prints as `None`). -/
def pyShow (s : Option Str) : Str :=
  match s with
  | none => ("None".toList)
  | some v => v

/-- Lookup `_movies.get(movie_id)` (line 60): first record with this id, if any.
(`_require_movie`'s `if not m` test is a `None` test here: a stored record is
a ten-key dict and never falsy.) -/
def dictGet (ms : List Movie) (movie_id : Str) : Option Movie :=
  ms.find? (fun x => x.id == movie_id)

/-- Assignment `_movies[movie_id] = record` / in-place mutation of a stored record:
replace the first entry carrying this id, else append. -/
def dictSet (ms : List Movie) (m : Movie) : List Movie :=
  match ms with
  | [] => [m]
  | x :: xs => if x.id == m.id then m :: xs else x :: dictSet xs m

/-- Deletion `del _movies[movie_id]` (line 203): remove the first entry with this id. -/
def dictDel (ms : List Movie) (movie_id : Str) : List Movie :=
  ms.eraseP (fun x => x.id == movie_id)

/-- Message of `ValueError("title is required.")` (line 81). -/
def msgTitleRequired : Str := ("title is required.".toList)

/-- Message of `ValueError("year looks invalid.")` (lines 83 and 184). -/
def msgYearInvalid : Str := ("year looks invalid.".toList)

/-- Message of `ValueError("title cannot be empty.")` (line 178). -/
def msgTitleEmpty : Str := ("title cannot be empty.".toList)

/-- Message of `ValueError("borrower is required.")` (line 212). -/
def msgBorrowerRequired : Str := ("borrower is required.".toList)

/-- Message of `ValueError("Movie is not borrowed.")` (line 231). -/
def msgNotBorrowed : Str := ("Movie is not borrowed.".toList)

/-- Message of `ValueError(f"Movie not found: {movie_id}")` (line 62). -/
def msgNotFound (movie_id : Str) : Str :=
  ("Movie not found: ".toList) ++ movie_id

/-- Message of `ValueError(f"Movie is already borrowed by {m['borrowed_by']}.")`
(line 217). -/
def msgAlreadyBorrowed (by_ : Option Str) : Str :=
  ("Movie is already borrowed by ".toList) ++ pyShow by_ ++ (".".toList)

/-- Operation `add_movie` (lines 71-102).  `newId` models `uuid.uuid4()`; `t1` and `t2`
model the two `_now_iso()` calls, in source order (`created_at` first,
`updated_at` second).  Returns the `_movie_public` result and the store after
the call. -/
def addMovie (ms : List Movie) (newId : Str) (t1 t2 : Nat) (title : Str)
    (year : Int) (genres : Option (List Str)) (director : Option Str) :
    Except MErr Movie × List Movie :=
  let title := strip title
  if title = [] then (.error (.invalidArgument msgTitleRequired), ms)
  else if year < 1878 ∨ year > 3000 then
    (.error (.invalidArgument msgYearInvalid), ms)
  else
    let record : Movie :=
      { id := newId, title := title, year := year,
        genres := normalizeGenres genres, director := stripToOption director,
        borrowed := false, borrowed_by := none, borrowed_at := none,
        created_at := t1, updated_at := t2 }
    (.ok record, dictSet ms record)

/-- Operation `get_movie` (lines 105-110): lookup, no mutation. -/
def getMovie (ms : List Movie) (movie_id : Str) : Except MErr Movie × List Movie :=
  match dictGet ms movie_id with
  | none => (.error (.notFound (msgNotFound movie_id)), ms)
  | some m => (.ok m, ms)

/-- The sort key of `items.sort(key=lambda x: (x["title"].lower(), x["year"],
x["id"]))` (lines 121 and 159), as a lexicographic tuple order on movies.
`List Char` carries Mathlib's lexicographic order, matching Python string
comparison by code point. -/
def keyLe (a b : Movie) : Prop :=
  lower a.title < lower b.title ∨
    (lower a.title = lower b.title ∧
      (a.year < b.year ∨ (a.year = b.year ∧ a.id ≤ b.id)))

instance : DecidableRel keyLe := fun a b => by
  unfold keyLe; infer_instance

/-- Operation `list_movies` (lines 113-122): optionally drop borrowed records, then a
stable ascending sort by `keyLe`. -/
def listMovies (ms : List Movie) (only_available : Bool) : List Movie :=
  let items := ms
  let items := if only_available then items.filter (fun m => !m.borrowed) else items
  items.insertionSort keyLe

/-- Operation `search_movies` (lines 125-160): trim+lower the string filters, apply the
provided filters in sequence, sort as `list_movies` does. -/
def searchMovies (ms : List Movie) (query : Option Str) (year : Option Int)
    (genre : Option Str) (director : Option Str) (only_available : Bool) :
    List Movie :=
  let q := lower (strip (query.getD []))
  let g := lower (strip (genre.getD []))
  let d := lower (strip (director.getD []))
  let results := ms
  let results := if only_available then results.filter (fun m => !m.borrowed) else results
  let results := if q ≠ [] then results.filter (fun m => isSubstr q (lower m.title)) else results
  let results :=
    match year with
    | none => results
    | some yy => results.filter (fun m => m.year == yy)
  let results :=
    if g ≠ [] then results.filter (fun m => m.genres.any (fun gg => g == lower gg)) else results
  let results :=
    if d ≠ [] then results.filter (fun m => isSubstr d (lower (m.director.getD []))) else results
  results.insertionSort keyLe

/-- The `update_movie` title block (lines 175-179): if provided, trim; empty is an
error, otherwise assign in place. -/
def updTitle (m : Movie) (title : Option Str) : Except MErr Movie :=
  match title with
  | none => .ok m
  | some ttl =>
    let t := strip ttl
    if t = [] then .error (.invalidArgument msgTitleEmpty)
    else .ok { m with title := t }

/-- The `update_movie` year block (lines 181-185): if provided, range-check, then
assign in place. -/
def updYear (m : Movie) (year : Option Int) : Except MErr Movie :=
  match year with
  | none => .ok m
  | some y =>
    if y < 1878 ∨ y > 3000 then .error (.invalidArgument msgYearInvalid)
    else .ok { m with year := y }

/-- The `update_movie` genres block (lines 187-188). -/
def updGenres (m : Movie) (genres : Option (List Str)) : Movie :=
  match genres with
  | none => m
  | some gs => { m with genres := normalizeGenres (some gs) }

/-- The `update_movie` director block (lines 190-192). -/
def updDirector (m : Movie) (director : Option Str) : Movie :=
  match director with
  | none => m
  | some d =>
    let dd := strip d
    { m with director := if dd = [] then none else some dd }

/-- Operation `update_movie` (lines 163-195).  `t` models the single `_now_iso()` call.
The blocks run in source order, mutating the stored record in place, so a
`ValueError` raised by a later block leaves the mutations of earlier blocks
in the store: the store component of the result reflects exactly the
mutations applied before the raise. -/
def updateMovie (ms : List Movie) (t : Nat) (movie_id : Str) (title : Option Str)
    (year : Option Int) (genres : Option (List Str)) (director : Option Str) :
    Except MErr Movie × List Movie :=
  match dictGet ms movie_id with
  | none => (.error (.notFound (msgNotFound movie_id)), ms)
  | some m0 =>
    match updTitle m0 title with
    | .error e => (.error e, dictSet ms m0)
    | .ok m1 =>
      match updYear m1 year with
      | .error e => (.error e, dictSet ms m1)
      | .ok m2 =>
        let m3 := updGenres m2 genres
        let m4 := updDirector m3 director
        let m5 := { m4 with updated_at := t }
        (.ok m5, dictSet ms m5)

/-- Operation `delete_movie` (lines 198-204): lookup, then remove; returns the deleted
id (the `{deleted: True, id: movie_id}` payload). -/
def deleteMovie (ms : List Movie) (movie_id : Str) : Except MErr Str × List Movie :=
  match dictGet ms movie_id with
  | none => (.error (.notFound (msgNotFound movie_id)), ms)
  | some _ => (.ok movie_id, dictDel ms movie_id)

/-- Operation `borrow_movie` (lines 207-222).  `t1` and `t2` model the two `_now_iso()`
calls (`borrowed_at` first, `updated_at` second). -/
def borrowMovie (ms : List Movie) (t1 t2 : Nat) (movie_id borrower : Str) :
    Except MErr Movie × List Movie :=
  let b := strip borrower
  if b = [] then (.error (.invalidArgument msgBorrowerRequired), ms)
  else
    match dictGet ms movie_id with
    | none => (.error (.notFound (msgNotFound movie_id)), ms)
    | some m =>
      if m.borrowed then
        (.error (.conflict (msgAlreadyBorrowed m.borrowed_by)), ms)
      else
        let m' := { m with borrowed := true, borrowed_by := some b,
                           borrowed_at := some t1, updated_at := t2 }
        (.ok m', dictSet ms m')

/-- Operation `return_movie` (lines 225-236).  `t` models the single `_now_iso()` call. -/
def returnMovie (ms : List Movie) (t : Nat) (movie_id : Str) :
    Except MErr Movie × List Movie :=
  match dictGet ms movie_id with
  | none => (.error (.notFound (msgNotFound movie_id)), ms)
  | some m =>
    if !m.borrowed then
      (.error (.invalidState msgNotBorrowed), ms)
    else
      let m' := { m with borrowed := false, borrowed_by := none,
                         borrowed_at := none, updated_at := t }
      (.ok m', dictSet ms m')

/-! ## Helper lemmas -/

theorem isPrefix_dropWhile_eq_self (p : Char → Bool) {A B : Str}
    (hA : A.dropWhile p = A) (hB : B <+: A) : B.dropWhile p = B := by
  rcases hB with ⟨t, rfl⟩
  cases B with
  | nil => rfl
  | cons a b =>
    rw [List.cons_append, List.dropWhile_cons] at hA
    rw [List.dropWhile_cons]
    by_cases h : p a
    · simp only [h, if_true] at hA
      have hle := (List.dropWhile_suffix p (l := b ++ t)).length_le
      rw [hA] at hle
      simp at hle
    · simp [h]

theorem strip_eq_rdropWhile (s : Str) :
    strip s = List.rdropWhile Char.isWhitespace (s.dropWhile Char.isWhitespace) := rfl

/-- Python `str.strip()` is idempotent. -/
theorem strip_idem (s : Str) : strip (strip s) = strip s := by
  rw [strip_eq_rdropWhile, strip_eq_rdropWhile]
  have hAfix : (s.dropWhile Char.isWhitespace).dropWhile Char.isWhitespace =
      s.dropWhile Char.isWhitespace := List.dropWhile_idempotent _ _
  have h2 : (List.rdropWhile Char.isWhitespace (s.dropWhile Char.isWhitespace)).dropWhile
      Char.isWhitespace = List.rdropWhile Char.isWhitespace (s.dropWhile Char.isWhitespace) :=
    isPrefix_dropWhile_eq_self _ hAfix ( List.rdropWhile_prefix _ _)
  rw [h2, List.rdropWhile_idempotent]

/-- Every output entry of the normalization loop is trimmed, non-empty, and its
lower-cased key is new; the output keys are pairwise distinct. -/
theorem normLoop_inv (l : List Str) : ∀ seen : List Str,
    ((normLoop seen l).map lower).Nodup ∧
      ∀ x ∈ normLoop seen l, strip x = x ∧ x ≠ [] ∧ lower x ∉ seen := by
  induction l with
  | nil => intro seen; simp [normLoop]
  | cons g rest ih =>
    intro seen
    by_cases hg : strip g = []
    · simpa [normLoop, hg] using ih seen
    · by_cases hk : lower (strip g) ∈ seen
      · simpa [normLoop, hg, hk] using ih seen
      · have ihx := ih (lower (strip g) :: seen)
        simp only [normLoop, hg, hk, if_neg, if_false]
        constructor
        · refine List.nodup_cons.mpr ⟨?_, ihx.1⟩
          intro hmem
          rcases List.mem_map.mp hmem with ⟨x, hx, hlx⟩
          exact ((ihx.2 x hx).2.2) (by rw [hlx]; exact List.mem_cons_self _ _)
        · intro x hx
          rcases List.mem_cons.mp hx with rfl | hx
          · exact ⟨strip_idem g, hg, hk⟩
          · obtain ⟨h1, h2, h3⟩ := ihx.2 x hx
            exact ⟨h1, h2, fun hmem => h3 (List.mem_cons_of_mem _ hmem)⟩

/-- The normalization loop is the identity on any list that already satisfies
its output invariant. -/
theorem normLoop_fixed : ∀ (out seen : List Str),
    ((out.map lower).Nodup) →
    (∀ x ∈ out, strip x = x ∧ x ≠ [] ∧ lower x ∉ seen) →
    normLoop seen out = out := by
  intro out
  induction out with
  | nil => intro seen _ _; rfl
  | cons x t ih =>
    intro seen hnd hx
    obtain ⟨hs, hne, hnot⟩ := hx x (List.mem_cons_self x t)
    have hcond : ¬ strip x = [] := by rw [hs]; exact hne
    simp only [normLoop]
    rw [if_neg hcond]
    rw [hs, if_neg hnot]
    congr 1
    rw [List.map_cons, List.nodup_cons] at hnd
    refine ih (lower x :: seen) hnd.2 ?_
    intro y hy
    obtain ⟨h1, h2, h3⟩ := hx y (List.mem_cons_of_mem _ hy)
    refine ⟨h1, h2, ?_⟩
    intro hmem
    rcases List.mem_cons.mp hmem with heq | hmem
    · exact hnd.1 (heq ▸ List.mem_map_of_mem lower hy)
    · exact h3 hmem

/-! ## Sample records used by concrete witnesses -/

/-- A concrete unborrowed record, as `add_movie` would create it. -/
def sampleMovie : Movie :=
  { id := ("i".toList), title := ("Old".toList), year := 2000,
    genres := [("Action".toList)], director := none,
    borrowed := false, borrowed_by := none, borrowed_at := none,
    created_at := 0, updated_at := 0 }

/-- A concrete borrowed record. -/
def sampleBorrowed : Movie :=
  { sampleMovie with borrowed := true, borrowed_by := some ("Alice".toList),
                     borrowed_at := some 1, updated_at := 1 }

/-- The record created by `addMovie [] "i" 0 1 "X" 2000 none none`. -/
def sampleAdded : Movie :=
  { id := ("i".toList), title := ("X".toList), year := 2000, genres := [],
    director := none, borrowed := false, borrowed_by := none,
    borrowed_at := none, created_at := 0, updated_at := 1 }

/-! ## Claims -/

/-- C9: genre normalization (trim, drop empties, case-insensitive de-dup
keeping first-seen casing and order) is idempotent, and
`["Action","action","Drama"]` normalizes to `["Action","Drama"]`. -/
theorem C9_normalize_idempotent :
    (∀ gs : List Str,
      normalizeGenres (some (normalizeGenres (some gs))) = normalizeGenres (some gs)) ∧
    normalizeGenres (some [("Action".toList), ("action".toList), ("Drama".toList)]) =
      [("Action".toList), ("Drama".toList)] := by
  constructor
  · intro gs
    show normLoop [] (normLoop [] gs) = normLoop [] gs
    obtain ⟨hnd, hmem⟩ := normLoop_inv gs []
    exact normLoop_fixed _ [] hnd hmem
  · decide

/-- C8: `add` fails with `InvalidArgument` exactly when the trimmed title is
empty or the year lies outside `[1878, 3000]`; plus the five concrete
boundary cases. -/
theorem C8_add_validation :
    (∀ ms newId t1 t2 title year genres director,
      (∃ msg, (addMovie ms newId t1 t2 title year genres director).1 =
          Except.error (MErr.invalidArgument msg)) ↔
        (strip title = [] ∨ year < 1878 ∨ year > 3000)) ∧
    (addMovie [] ("i".toList) 0 0 ("".toList) 2000 none none).1 =
        Except.error (MErr.invalidArgument msgTitleRequired) ∧
    (addMovie [] ("i".toList) 0 0 ("X".toList) 1877 none none).1 =
        Except.error (MErr.invalidArgument msgYearInvalid) ∧
    ((addMovie [] ("i".toList) 0 0 ("X".toList) 1878 none none).1).isOk = true ∧
    ((addMovie [] ("i".toList) 0 0 ("X".toList) 3000 none none).1).isOk = true ∧
    (addMovie [] ("i".toList) 0 0 ("X".toList) 3001 none none).1 =
        Except.error (MErr.invalidArgument msgYearInvalid) := by
  refine ⟨?_, by decide, by decide, by decide, by decide, by decide⟩
  intro ms newId t1 t2 title year genres director
  unfold addMovie
  by_cases ht : strip title = []
  · simp [ht]
  · by_cases hy : year < 1878 ∨ year > 3000
    · simp [ht, hy]
    · simp [ht, hy]

/-- C3 counterexample: `add_movie` stamps `created_at` and `updated_at` with
two separate `_now_iso()` calls; when the clock advances between them the two
fields differ, refuting `created_at = updated_at`. -/
theorem C3_counterexample :
    (addMovie [] ("i".toList) 0 1 ("X".toList) 2000 none none).1 =
      Except.ok sampleAdded ∧
    sampleAdded.created_at ≠ sampleAdded.updated_at := by
  decide

/-- C3 amended: a successful `add` stamps `created_at` with the first clock
reading and `updated_at` with the second (equal only if the clock did not
advance), and initializes the checkout fields to the unborrowed state. -/
theorem C3_amended_add_metadata :
    ∀ ms newId t1 t2 title year genres director m ms',
      addMovie ms newId t1 t2 title year genres director = (Except.ok m, ms') →
      m.created_at = t1 ∧ m.updated_at = t2 ∧ m.borrowed = false ∧
        m.borrowed_by = none ∧ m.borrowed_at = none := by
  intro ms newId t1 t2 title year genres director m ms' h
  unfold addMovie at h
  by_cases ht : strip title = []
  · simp [ht] at h
  · by_cases hy : year < 1878 ∨ year > 3000
    · simp [ht, hy] at h
    · simp only [ht, hy, if_neg, if_false] at h
      rw [Prod.mk.injEq] at h
      cases Except.ok.inj h.1
      simp

/-- Witness for C3 amended at a concrete input. -/
theorem C3_amended_add_metadata_witness :
    sampleAdded.created_at = 0 ∧ sampleAdded.updated_at = 1 ∧
      sampleAdded.borrowed = false ∧ sampleAdded.borrowed_by = none ∧
      sampleAdded.borrowed_at = none :=
  C3_amended_add_metadata [] ("i".toList) 0 1 ("X".toList) 2000 none none
    sampleAdded [sampleAdded] (by decide)

/-- C10: `update` with every optional field omitted succeeds on an existing
record, replaces no field but `updated_at`, and refreshes `updated_at` to the
current clock reading. -/
theorem C10_update_all_omitted :
    ∀ ms t movie_id m0, dictGet ms movie_id = some m0 →
      updateMovie ms t movie_id none none none none =
        (Except.ok { m0 with updated_at := t },
          dictSet ms { m0 with updated_at := t }) := by
  intro ms t movie_id m0 h
  unfold updateMovie
  rw [h]
  simp [updTitle, updYear, updGenres, updDirector]

/-- Witness for C10 at a concrete input. -/
theorem C10_update_all_omitted_witness :
    updateMovie [sampleMovie] 7 ("i".toList) none none none none =
      (Except.ok { sampleMovie with updated_at := 7 },
        dictSet [sampleMovie] { sampleMovie with updated_at := 7 }) :=
  C10_update_all_omitted [sampleMovie] 7 ("i".toList) sampleMovie (by decide)

/-! ## Dictionary lemmas -/

/-- A successful `dictGet` returns a record carrying the looked-up id. -/
theorem dictGet_id {ms : List Movie} {i : Str} {m : Movie}
    (h : dictGet ms i = some m) : m.id = i := by
  have := List.find?_some h
  simpa using this

/-- Re-storing the very record `dictGet` found leaves the store unchanged. -/
theorem dictSet_self {ms : List Movie} {i : Str} {m : Movie}
    (h : dictGet ms i = some m) : dictSet ms m = ms := by
  induction ms with
  | nil => simp [dictGet] at h
  | cons x xs ih =>
    by_cases hx : x.id = i
    · have hm : x = m := by
        have := h
        rw [dictGet, List.find?_cons_of_pos _ (by simpa using hx)] at this
        exact Option.some.inj this
      subst hm
      simp [dictSet]
    · rw [dictGet, List.find?_cons_of_neg _ (by simpa using hx)] at h
      have hmi : m.id = i := dictGet_id h
      rw [dictSet, if_neg (by simp [hmi, hx])]
      rw [ih h]

/-- A string occurring between two others is a substring of the whole. -/
theorem isSubstr_of_parts (pre mid suf : Str) :
    isSubstr mid (pre ++ mid ++ suf) = true := by
  unfold isSubstr
  rw [List.any_eq_true]
  refine ⟨mid ++ suf, ?_, ?_⟩
  · rw [List.mem_tails]
    exact ⟨pre, by simp⟩
  · rw [ List.isPrefixOf_iff_prefix]
    exact List.prefix_append mid suf

/-- C1 counterexample: `update` on an existing record with a valid new title
and an out-of-range year fails with `InvalidArgument`, yet the stored record's
title has already been replaced — the stored record is not as it was before
the call. -/
theorem C1_counterexample :
    updateMovie [sampleMovie] 5 ("i".toList) (some ("New".toList)) (some 5000)
        none none =
      (Except.error (MErr.invalidArgument msgYearInvalid),
        [{ sampleMovie with title := ("New".toList) }]) ∧
    [{ sampleMovie with title := ("New".toList) }] ≠ [sampleMovie] := by
  decide

/-- C1 amended: `update` validates and applies fields in source order (title,
year, genres, director) mutating the stored record in place, so a failure of
the title check leaves the store unchanged, but a failure of the year check
after a valid provided title leaves the new trimmed title already stored
(`updated_at` is not refreshed on any failing call). -/
theorem C1_amended_update_interleaving :
    (∀ ms t movie_id m0 ttl year genres director,
      dictGet ms movie_id = some m0 → strip ttl = [] →
      updateMovie ms t movie_id (some ttl) year genres director =
        (Except.error (MErr.invalidArgument msgTitleEmpty), ms)) ∧
    (∀ ms t movie_id m0 ttl y genres director,
      dictGet ms movie_id = some m0 → strip ttl ≠ [] → (y < 1878 ∨ y > 3000) →
      updateMovie ms t movie_id (some ttl) (some y) genres director =
        (Except.error (MErr.invalidArgument msgYearInvalid),
          dictSet ms { m0 with title := strip ttl })) := by
  constructor
  · intro ms t movie_id m0 ttl year genres director hget hstrip
    unfold updateMovie
    rw [hget]
    simp [updTitle, hstrip, dictSet_self hget]
  · intro ms t movie_id m0 ttl y genres director hget hne hy
    unfold updateMovie
    rw [hget]
    simp [updTitle, hne, updYear, hy]

/-- Witness for C1 amended at concrete inputs. -/
theorem C1_amended_update_interleaving_witness :
    updateMovie [sampleMovie] 5 ("i".toList) (some ("  ".toList)) none none none =
      (Except.error (MErr.invalidArgument msgTitleEmpty), [sampleMovie]) ∧
    updateMovie [sampleMovie] 5 ("i".toList) (some ("New".toList)) (some 5000)
        none none =
      (Except.error (MErr.invalidArgument msgYearInvalid),
        dictSet [sampleMovie] { sampleMovie with title := strip ("New".toList) }) :=
  ⟨C1_amended_update_interleaving.1 [sampleMovie] 5 ("i".toList) sampleMovie
      ("  ".toList) none none none (by decide) (by decide),
   C1_amended_update_interleaving.2 [sampleMovie] 5 ("i".toList) sampleMovie
      ("New".toList) 5000 none none (by decide) (by decide) (by decide)⟩

/-- C5: `borrow` on an already-borrowed record fails with `Conflict` whose
message embeds the current borrower and leaves the store untouched; `return`
on a record that is not borrowed fails with `InvalidState` and leaves the
store untouched; the conflict message contains the borrower as a substring. -/
theorem C5_borrow_return_guards :
    (∀ ms t1 t2 movie_id borrower m, strip borrower ≠ [] →
      dictGet ms movie_id = some m → m.borrowed = true →
      borrowMovie ms t1 t2 movie_id borrower =
        (Except.error (MErr.conflict (msgAlreadyBorrowed m.borrowed_by)), ms)) ∧
    (∀ ms t movie_id m, dictGet ms movie_id = some m → m.borrowed = false →
      returnMovie ms t movie_id =
        (Except.error (MErr.invalidState msgNotBorrowed), ms)) ∧
    (∀ b, isSubstr (pyShow b) (msgAlreadyBorrowed b) = true) := by
  refine ⟨?_, ?_, ?_⟩
  · intro ms t1 t2 movie_id borrower m hb hget hbor
    unfold borrowMovie
    rw [if_neg hb, hget]
    simp [hbor]
  · intro ms t movie_id m hget hbor
    unfold returnMovie
    rw [hget]
    simp [hbor]
  · intro b
    exact isSubstr_of_parts ("Movie is already borrowed by ".toList) (pyShow b)
      (".".toList)

/-- Witness for C5 at concrete inputs. -/
theorem C5_borrow_return_guards_witness :
    borrowMovie [sampleBorrowed] 5 6 ("i".toList) ("Bob".toList) =
      (Except.error (MErr.conflict (msgAlreadyBorrowed sampleBorrowed.borrowed_by)),
        [sampleBorrowed]) ∧
    returnMovie [sampleMovie] 5 ("i".toList) =
      (Except.error (MErr.invalidState msgNotBorrowed), [sampleMovie]) ∧
    isSubstr (pyShow (some ("Alice".toList)))
      (msgAlreadyBorrowed (some ("Alice".toList))) = true :=
  ⟨C5_borrow_return_guards.1 [sampleBorrowed] 5 6 ("i".toList) ("Bob".toList)
      sampleBorrowed (by decide) (by decide) (by decide),
   C5_borrow_return_guards.2.1 [sampleMovie] 5 ("i".toList) sampleMovie
      (by decide) (by decide),
   C5_borrow_return_guards.2.2 (some ("Alice".toList))⟩

/-! ## Aliasing model for the returned copies (claim C2)

Python dicts hold references: the stored record's `genres` entry is a pointer
to a mutable list object.  `Heap` maps addresses to list objects; a `PMovie`
is a record whose `genres` field is such an address. -/

/-- Address-indexed storage of Python list objects. -/
abbrev Heap := List (List Str)

/-- A stored record in the aliasing model: identical to `Movie` except that
`genresRef` is the heap address of the genres list object. -/
structure PMovie where
  id : Str
  title : Str
  year : Int
  genresRef : Nat
  director : Option Str
  borrowed : Bool
  borrowed_by : Option Str
  borrowed_at : Option Nat
  created_at : Nat
  updated_at : Nat
deriving Repr, DecidableEq

/-- Dereference a list object. -/
def heapRead (h : Heap) (r : Nat) : List Str := h.getD r []

/-- In-place mutation of the list object at address `r` (what a caller does
when it mutates the `genres` list of a returned record). -/
def heapWrite (h : Heap) (r : Nat) (v : List Str) : Heap := h.set r v

/-- Function `_movie_public` (lines 66-68) in the aliasing model: `dict(m)` builds a
fresh top-level dict with the same field values, so the `genres` entry of the
copy holds the same list reference as the stored record.  As a pure value the
copy therefore coincides with `m`; in particular `genresRef` is shared. -/
def moviePublicP (m : PMovie) : PMovie := m

/-- Operation `add_movie` (lines 71-102) in the aliasing model: same validation as
`addMovie`; `_normalize_genres` builds a fresh list object, allocated here at
the next free address; the stored record refers to it and the caller receives
`_movie_public` of the stored record. -/
def addMovieP (h : Heap) (ms : List PMovie) (newId : Str) (t1 t2 : Nat)
    (title : Str) (year : Int) (genres : Option (List Str))
    (director : Option Str) : Except MErr (PMovie × List PMovie × Heap) :=
  let title := strip title
  if title = [] then .error (.invalidArgument msgTitleRequired)
  else if year < 1878 ∨ year > 3000 then .error (.invalidArgument msgYearInvalid)
  else
    let record : PMovie :=
      { id := newId, title := title, year := year, genresRef := h.length,
        director := stripToOption director, borrowed := false,
        borrowed_by := none, borrowed_at := none,
        created_at := t1, updated_at := t2 }
    .ok (moviePublicP record, ms ++ [record], h ++ [normalizeGenres genres])

/-- The record created by the concrete `addMovieP` run below; its genres list
lives at heap address 0. -/
def samplePub : PMovie :=
  { id := ("i".toList), title := ("X".toList), year := 2000, genresRef := 0,
    director := none, borrowed := false, borrowed_by := none,
    borrowed_at := none, created_at := 0, updated_at := 1 }

/-- C2 counterexample: `add` returns `_movie_public` of the stored record, a
shallow copy sharing the genres list object; clearing the genres list through
the returned copy changes what the stored record's genres read back as, so
mutating the returned value does reach the store's internal state. -/
theorem C2_counterexample :
    addMovieP [] [] ("i".toList) 0 1 ("X".toList) 2000
        (some [("Action".toList)]) none =
      Except.ok (moviePublicP samplePub, [samplePub], [[("Action".toList)]]) ∧
    heapRead [[("Action".toList)]] samplePub.genresRef = [("Action".toList)] ∧
    heapRead (heapWrite [[("Action".toList)]] (moviePublicP samplePub).genresRef [])
        samplePub.genresRef = [] ∧
    ([] : List Str) ≠ [("Action".toList)] := by
  decide

/-- C2 amended: returned records are shallow copies — the top-level mapping is
fresh (so rebinding a field of the copy cannot affect the store), but the
genres list object is shared by reference: an in-place write through the
returned copy's genres reference is read back through the stored record. -/
theorem C2_amended_shallow_copy :
    ∀ (h : Heap) (m : PMovie) (v : List Str), m.genresRef < h.length →
      (moviePublicP m).genresRef = m.genresRef ∧
      heapRead (heapWrite h (moviePublicP m).genresRef v) m.genresRef = v := by
  intro h m v hlt
  refine ⟨rfl, ?_⟩
  unfold heapRead heapWrite moviePublicP
  rw [List.getD_eq_getElem?_getD, List.getElem?_set_self']
  simp [hlt]

/-- Witness for C2 amended at a concrete input. -/
theorem C2_amended_shallow_copy_witness :
    (moviePublicP samplePub).genresRef = samplePub.genresRef ∧
    heapRead (heapWrite [[("Action".toList)]] (moviePublicP samplePub).genresRef
        [("Horror".toList)]) samplePub.genresRef = [("Horror".toList)] :=
  C2_amended_shallow_copy [[("Action".toList)]] samplePub [("Horror".toList)]
    (by decide)

/-! ## Sort order (claim C6) -/

instance : IsTrans Movie keyLe := by
  constructor
  intro a b c hab hbc
  rcases hab with h1 | ⟨e1, h1⟩ <;> rcases hbc with h2 | ⟨e2, h2⟩
  · exact Or.inl (lt_trans h1 h2)
  · exact Or.inl (e2 ▸ h1)
  · exact Or.inl (e1 ▸ h2)
  · refine Or.inr ⟨e1.trans e2, ?_⟩
    rcases h1 with h1 | ⟨f1, h1⟩ <;> rcases h2 with h2 | ⟨f2, h2⟩
    · exact Or.inl (lt_trans h1 h2)
    · exact Or.inl (f2 ▸ h1)
    · exact Or.inl (f1 ▸ h2)
    · exact Or.inr ⟨f1.trans f2, le_trans h1 h2⟩

instance : IsTotal Movie keyLe := by
  constructor
  intro a b
  rcases lt_trichotomy (lower a.title) (lower b.title) with h | h | h
  · exact Or.inl (Or.inl h)
  · rcases lt_trichotomy a.year b.year with h2 | h2 | h2
    · exact Or.inl (Or.inr ⟨h, Or.inl h2⟩)
    · rcases le_total a.id b.id with h3 | h3
      · exact Or.inl (Or.inr ⟨h, Or.inr ⟨h2, h3⟩⟩)
      · exact Or.inr (Or.inr ⟨h.symm, Or.inr ⟨h2.symm, h3⟩⟩)
    · exact Or.inr (Or.inr ⟨h.symm, Or.inl h2⟩)
  · exact Or.inr (Or.inl h)

/-- Record with title `"b"`, year 2000 (spec's sort-determinism scenario). -/
def exB : Movie :=
  { id := ("1".toList), title := ("b".toList), year := 2000, genres := [],
    director := none, borrowed := false, borrowed_by := none,
    borrowed_at := none, created_at := 0, updated_at := 0 }

/-- Record with title `"A"`, year 1999. -/
def exA : Movie := { exB with id := ("2".toList), title := ("A".toList), year := 1999 }

/-- Record with title `"a"`, year 2001. -/
def exA2 : Movie := { exB with id := ("3".toList), title := ("a".toList), year := 2001 }

/-- C6: `list` and `search` return their records sorted by the total order
(case-insensitive title, then year, then id, all ascending); `list` returns a
permutation of the (availability-filtered) collection; and on the spec's
concrete scenario — titles `b`, `A`, `a` with years 2000, 1999, 2001 — the
order returned is `A`(1999), `a`(2001), `b`(2000). -/
theorem C6_sort_order :
    (∀ ms oa, List.Sorted keyLe (listMovies ms oa)) ∧
    (∀ ms oa, List.Perm (listMovies ms oa)
        (if oa then ms.filter (fun m => !m.borrowed) else ms)) ∧
    (∀ ms q y g d oa, List.Sorted keyLe (searchMovies ms q y g d oa)) ∧
    listMovies [exB, exA, exA2] false = [exA, exA2, exB] := by
  refine ⟨?_, ?_, ?_, by decide⟩
  · intro ms oa
    simp only [listMovies]
    exact List.sorted_insertionSort keyLe _
  · intro ms oa
    simp only [listMovies]
    cases oa <;> simpa using List.perm_insertionSort keyLe _
  · intro ms q y g d oa
    simp only [searchMovies]
    exact List.sorted_insertionSort keyLe _

/-! ## Search filter semantics (claim C7) -/

/-- Following the spec's words: a string filter is provided when it is
non-empty after trimming; an empty or whitespace-only filter string counts as
not provided. -/
def specProvided (s : Option Str) : Prop := strip (s.getD []) ≠ []

/-- Following the spec's words (section 4.1 `search`): the conjunction of the
provided filters — `query` a case-insensitive substring match on the title,
`year` an exact match, `genre` a case-insensitive exact match against some
genre entry, `director` a case-insensitive substring match where an absent
director never matches a provided filter, `only_available` excluding borrowed
records; a filter that is not provided matches every record. -/
def specSearchMatch (query : Option Str) (year : Option Int) (genre : Option Str)
    (director : Option Str) (only_available : Bool) (m : Movie) : Prop :=
  (only_available = true → m.borrowed = false) ∧
  (specProvided query →
    isSubstr (lower (strip (query.getD []))) (lower m.title) = true) ∧
  (∀ yy, year = some yy → m.year = yy) ∧
  (specProvided genre →
    ∃ gg ∈ m.genres, lower (strip (genre.getD [])) = lower gg) ∧
  (specProvided director →
    isSubstr (lower (strip (director.getD []))) (lower (m.director.getD [])) = true)

theorem specProvided_iff (s : Option Str) :
    specProvided s ↔ lower (strip (s.getD [])) ≠ [] := by
  simp [specProvided, lower]

/-- C7: a record appears in the result of `search` exactly when it is in the
collection and satisfies every provided filter (conjunctive semantics, with
empty-after-trim string filters matching everything). -/
theorem C7_search_conjunctive :
    ∀ ms query year genre director oa m,
      m ∈ searchMovies ms query year genre director oa ↔
        m ∈ ms ∧ specSearchMatch query year genre director oa m := by
  intro ms query year genre director oa m
  have hmem : ∀ (l : List Movie), m ∈ l.insertionSort keyLe ↔ m ∈ l :=
    fun l => (List.perm_insertionSort keyLe l).mem_iff
  cases oa <;> rcases year with _ | yy <;>
    by_cases hq : lower (strip (query.getD [])) = [] <;>
    by_cases hg : lower (strip (genre.getD [])) = [] <;>
    by_cases hd : lower (strip (director.getD [])) = [] <;>
    simp [searchMovies, hmem, List.mem_filter, specSearchMatch,
      specProvided_iff, hq, hg, hd, and_assoc] <;>
    tauto

/-! ## Reachable states and the checkout invariant (claim C4) -/

/-- One invocation of one of the eight tool operations, with the external
inputs (fresh id, clock readings) it consumes. -/
inductive Op where
  | addO (newId : Str) (t1 t2 : Nat) (title : Str) (year : Int)
      (genres : Option (List Str)) (director : Option Str)
  | getO (movie_id : Str)
  | listO (only_available : Bool)
  | searchO (query : Option Str) (year : Option Int) (genre : Option Str)
      (director : Option Str) (only_available : Bool)
  | updateO (t : Nat) (movie_id : Str) (title : Option Str) (year : Option Int)
      (genres : Option (List Str)) (director : Option Str)
  | deleteO (movie_id : Str)
  | borrowO (t1 t2 : Nat) (movie_id : Str) (borrower : Str)
  | returnO (t : Nat) (movie_id : Str)

/-- The store after one operation.  `list_movies` and `search_movies` only
read the collection, so they leave the store as is. -/
def applyOp (ms : List Movie) : Op → List Movie
  | .addO newId t1 t2 title year genres director =>
      (addMovie ms newId t1 t2 title year genres director).2
  | .getO movie_id => (getMovie ms movie_id).2
  | .listO _ => ms
  | .searchO _ _ _ _ _ => ms
  | .updateO t movie_id title year genres director =>
      (updateMovie ms t movie_id title year genres director).2
  | .deleteO movie_id => (deleteMovie ms movie_id).2
  | .borrowO t1 t2 movie_id borrower => (borrowMovie ms t1 t2 movie_id borrower).2
  | .returnO t movie_id => (returnMovie ms t movie_id).2

/-- The store resulting from a finite sequence of operations run against the
initially empty collection. -/
def reachable (ops : List Op) : List Movie := ops.foldl applyOp []

/-- The spec's checkout invariant for one record: `borrowed = true` exactly
when both `borrowed_by` and `borrowed_at` are present, `borrowed = false`
exactly when both are absent. -/
def checkoutInv (m : Movie) : Prop :=
  (m.borrowed = true ↔ m.borrowed_by.isSome = true ∧ m.borrowed_at.isSome = true) ∧
  (m.borrowed = false ↔ m.borrowed_by = none ∧ m.borrowed_at = none)

theorem checkoutInv_congr {a b : Movie} (h1 : b.borrowed = a.borrowed)
    (h2 : b.borrowed_by = a.borrowed_by) (h3 : b.borrowed_at = a.borrowed_at)
    (h : checkoutInv a) : checkoutInv b := by
  unfold checkoutInv at *
  rw [h1, h2, h3]
  exact h

/-- Membership in the store after a dict assignment. -/
theorem mem_dictSet {ms : List Movie} {x y : Movie} (h : y ∈ dictSet ms x) :
    y ∈ ms ∨ y = x := by
  induction ms with
  | nil =>
    simp [dictSet] at h
    exact Or.inr h
  | cons z zs ih =>
    rw [dictSet] at h
    by_cases hz : z.id == x.id
    · rw [if_pos hz] at h
      rcases List.mem_cons.mp h with rfl | h
      · exact Or.inr rfl
      · exact Or.inl (List.mem_cons_of_mem _ h)
    · rw [if_neg hz] at h
      rcases List.mem_cons.mp h with rfl | h
      · exact Or.inl (List.mem_cons_self _ _)
      · rcases ih h with h | h
        · exact Or.inl (List.mem_cons_of_mem _ h)
        · exact Or.inr h

theorem getMovie_snd (ms : List Movie) (i : Str) : (getMovie ms i).2 = ms := by
  unfold getMovie
  cases dictGet ms i <;> rfl

theorem updTitle_borrow_fields {m m' : Movie} {t : Option Str}
    (h : updTitle m t = .ok m') :
    m'.borrowed = m.borrowed ∧ m'.borrowed_by = m.borrowed_by ∧
      m'.borrowed_at = m.borrowed_at := by
  cases t with
  | none =>
    cases Except.ok.inj h
    exact ⟨rfl, rfl, rfl⟩
  | some ttl =>
    simp only [updTitle] at h
    by_cases hs : strip ttl = []
    · rw [if_pos hs] at h
      exact Except.noConfusion h
    · rw [if_neg hs] at h
      cases Except.ok.inj h
      exact ⟨rfl, rfl, rfl⟩

theorem updYear_borrow_fields {m m' : Movie} {y : Option Int}
    (h : updYear m y = .ok m') :
    m'.borrowed = m.borrowed ∧ m'.borrowed_by = m.borrowed_by ∧
      m'.borrowed_at = m.borrowed_at := by
  cases y with
  | none =>
    cases Except.ok.inj h
    exact ⟨rfl, rfl, rfl⟩
  | some yy =>
    simp only [updYear] at h
    by_cases hy : yy < 1878 ∨ yy > 3000
    · rw [if_pos hy] at h
      exact Except.noConfusion h
    · rw [if_neg hy] at h
      cases Except.ok.inj h
      exact ⟨rfl, rfl, rfl⟩

theorem updGenres_borrow_fields (m : Movie) (g : Option (List Str)) :
    (updGenres m g).borrowed = m.borrowed ∧
      (updGenres m g).borrowed_by = m.borrowed_by ∧
      (updGenres m g).borrowed_at = m.borrowed_at := by
  cases g <;> exact ⟨rfl, rfl, rfl⟩

theorem updDirector_borrow_fields (m : Movie) (d : Option Str) :
    (updDirector m d).borrowed = m.borrowed ∧
      (updDirector m d).borrowed_by = m.borrowed_by ∧
      (updDirector m d).borrowed_at = m.borrowed_at := by
  cases d <;> exact ⟨rfl, rfl, rfl⟩

/-- Every operation preserves the checkout invariant of every stored record. -/
theorem applyOp_checkoutInv {ms : List Movie} (hinv : ∀ m ∈ ms, checkoutInv m)
    (op : Op) : ∀ m ∈ applyOp ms op, checkoutInv m := by
  intro m hm
  cases op with
  | addO newId t1 t2 title year genres director =>
    simp only [applyOp, addMovie] at hm
    by_cases ht : strip title = []
    · simp [ht] at hm
      exact hinv m hm
    · by_cases hy : year < 1878 ∨ year > 3000
      · simp [ht, hy] at hm
        exact hinv m hm
      · simp [ht, hy] at hm
        rcases mem_dictSet hm with h | rfl
        · exact hinv m h
        · simp [checkoutInv]
  | getO movie_id =>
    rw [show applyOp ms (Op.getO movie_id) = (getMovie ms movie_id).2 from rfl,
      getMovie_snd] at hm
    exact hinv m hm
  | listO oa => exact hinv m hm
  | searchO q y g d oa => exact hinv m hm
  | updateO t movie_id title year genres director =>
    simp only [applyOp] at hm
    unfold updateMovie at hm
    rcases hdg : dictGet ms movie_id with _ | m0
    · rw [hdg] at hm
      simp at hm
      exact hinv m hm
    · rw [hdg] at hm
      simp only [] at hm
      have hm0 : checkoutInv m0 := hinv m0 (List.mem_of_find?_eq_some hdg)
      rcases ht : updTitle m0 title with e | m1
      · rw [ht] at hm
        simp at hm
        rcases mem_dictSet hm with h | rfl
        · exact hinv m h
        · exact hm0
      · rw [ht] at hm
        simp only [] at hm
        have hf1 := updTitle_borrow_fields ht
        rcases hy : updYear m1 year with e | m2
        · rw [hy] at hm
          simp at hm
          rcases mem_dictSet hm with h | rfl
          · exact hinv m h
          · exact checkoutInv_congr hf1.1 hf1.2.1 hf1.2.2 hm0
        · rw [hy] at hm
          have hf2 := updYear_borrow_fields hy
          simp at hm
          rcases mem_dictSet hm with h | rfl
          · exact hinv m h
          · refine checkoutInv_congr ?_ ?_ ?_ hm0
            · show (updDirector (updGenres m2 genres) director).borrowed = m0.borrowed
              rw [(updDirector_borrow_fields _ _).1, (updGenres_borrow_fields _ _).1,
                hf2.1, hf1.1]
            · show (updDirector (updGenres m2 genres) director).borrowed_by =
                m0.borrowed_by
              rw [(updDirector_borrow_fields _ _).2.1,
                (updGenres_borrow_fields _ _).2.1, hf2.2.1, hf1.2.1]
            · show (updDirector (updGenres m2 genres) director).borrowed_at =
                m0.borrowed_at
              rw [(updDirector_borrow_fields _ _).2.2,
                (updGenres_borrow_fields _ _).2.2, hf2.2.2, hf1.2.2]
  | deleteO movie_id =>
    simp only [applyOp] at hm
    unfold deleteMovie at hm
    rcases hdg : dictGet ms movie_id with _ | m0
    · rw [hdg] at hm
      simp at hm
      exact hinv m hm
    · rw [hdg] at hm
      simp only at hm
      exact hinv m ((List.eraseP_sublist _).subset hm)
  | borrowO t1 t2 movie_id borrower =>
    simp only [applyOp, borrowMovie] at hm
    by_cases hb : strip borrower = []
    · simp [hb] at hm
      exact hinv m hm
    · simp only [hb, if_neg, if_false] at hm
      rcases hdg : dictGet ms movie_id with _ | m0
      · rw [hdg] at hm
        simp at hm
        exact hinv m hm
      · rw [hdg] at hm
        by_cases hbor : m0.borrowed
        · simp [hbor] at hm
          exact hinv m hm
        · simp [hbor] at hm
          rcases mem_dictSet hm with h | rfl
          · exact hinv m h
          · simp [checkoutInv]
  | returnO t movie_id =>
    simp only [applyOp] at hm
    unfold returnMovie at hm
    rcases hdg : dictGet ms movie_id with _ | m0
    · rw [hdg] at hm
      simp at hm
      exact hinv m hm
    · rw [hdg] at hm
      by_cases hbor : m0.borrowed
      · simp [hbor] at hm
        rcases mem_dictSet hm with h | rfl
        · exact hinv m h
        · simp [checkoutInv]
      · simp [hbor] at hm
        exact hinv m hm

theorem foldl_checkoutInv : ∀ (ops : List Op) (ms : List Movie),
    (∀ m ∈ ms, checkoutInv m) → ∀ m ∈ ops.foldl applyOp ms, checkoutInv m := by
  intro ops
  induction ops with
  | nil => intro ms h; simpa using h
  | cons op rest ih =>
    intro ms h
    rw [List.foldl_cons]
    exact ih _ (applyOp_checkoutInv h op)

/-- C4: in every store reachable by a finite sequence of the eight operations
from the empty collection, every record satisfies the checkout invariant:
`borrowed = true` iff both `borrowed_by` and `borrowed_at` are present, and
`borrowed = false` iff both are absent. -/
theorem C4_checkout_invariant :
    ∀ (ops : List Op) (m : Movie), m ∈ reachable ops → checkoutInv m := by
  intro ops m hm
  exact foldl_checkoutInv ops [] (by simp) m hm

/-- Witness for C4 on a concrete reachable state. -/
theorem C4_checkout_invariant_witness : checkoutInv sampleAdded :=
  C4_checkout_invariant
    [Op.addO ("i".toList) 0 1 ("X".toList) 2000 none none] sampleAdded
    (by decide)
